import Mathlib

/-!
Verification of the ZX Spectrum 48K emulator core (zx-generation).

This file contains a shallow embedding, in Lean 4, of the parts of the
JavaScript source of the emulator that the verified claims are about:

* `Memory` (src/spectrum/memory.js): 16 KiB ROM + 48 KiB RAM, contention.
* `ULAState` (src/spectrum/ula.js): scanline counter and interrupt request.
* `Z80CPU` / `Machine` (src/core/cpu.js): register file, flags, stack
  helpers, maskable-interrupt acceptance.
* Decoder slice (src/decoder/decoder.js and the instruction tables):
  `executeInstruction` with the EI delayed-enable handling, and the table
  entries for NOP, EI, LD A,(HL), PUSH/POP rp, LDI and LDIR.
* `TapeState` (src/spectrum/tape.js): the tape pulse engine.

Translation conventions, used consistently:

* JavaScript numbers holding non-negative integers become `Nat`.
  `x & 0xffff` is written `x % 65536` and `x & 0xff` is written `x % 256`
  (equal functions on `Nat`); `x >>> 8` is written `x >>> 8` (`Nat`
  shift); `(hi << 8) | lo` is written `hi <<< 8 ||| lo` literally.
* `Uint8Array` contents are modelled as functions `Nat → Nat` whose reads
  are reduced `% 256`, capturing the byte range of array elements.
* JavaScript `f &= ~mask` coerces to 32-bit; it is written
  `f &&& (4294967295 ^^^ mask)`, which agrees with it for `f < 2^32`
  (the `f` register always stays below 256 in the program).
* `while` loops and the recursive tape `nextBlock` chain are given an
  explicit `fuel : Nat` bound; any fuel not below the number of loop
  iterations the JavaScript performs yields the JavaScript result.
* A JavaScript number that can be `Infinity` (`nextEdgeCycle`) becomes
  `Option Nat` with `none` for `Infinity`.
-/

namespace ZXG

/-! ## Memory (src/spectrum/memory.js) -/

/-- Memory state: `rom` and `ram` model the two `Uint8Array`s.  `ula` is
modelled as always connected (the emulator wires it in its constructor);
the ULA fields needed for contention are passed explicitly. -/
structure Memory where
  rom : Nat → Nat
  ram : Nat → Nat

/-- ULA state: the scanline counter slice of src/spectrum/ula.js used by
memory contention and the frame interrupt. -/
structure ULAState where
  currentScanline : Nat
  scanlineTStates : Nat
  interruptRequested : Bool

/-- Contention pattern table `[6,5,4,3,2,1,0,0]` from the `Memory`
constructor. -/
def contentionPattern (i : Nat) : Nat :=
  [6, 5, 4, 3, 2, 1, 0, 0].getD i 0

/-- `Memory.getContentionDelay`: delay for an access to `addr` given the
ULA scanline position (the source reads `this.ula.getCurrentScanline()`
and `this.ula.scanlineTStates`). -/
def Memory.getContentionDelay (u : ULAState) (addr : Nat) : Nat :=
  if addr < 0x4000 ∨ 0x8000 ≤ addr then 0
  else if u.currentScanline < 64 ∨ 256 ≤ u.currentScanline then 0
  else if u.scanlineTStates < 128 then contentionPattern (u.scanlineTStates % 8)
  else 0

/-- `Memory.read`: the source computes `getContentionDelay(addr)` into an
unused local and returns the plain byte (ROM below 0x4000, else RAM). -/
def Memory.read (m : Memory) (addr : Nat) : Nat :=
  let a := addr % 65536
  if a < 0x4000 then m.rom a % 256 else m.ram (a - 0x4000) % 256

/-- `Memory.write`: writes below 0x4000 are ignored; other writes store
`value & 0xff` into RAM. -/
def Memory.write (m : Memory) (addr value : Nat) : Memory :=
  let a := addr % 65536
  let v := value % 256
  if a < 0x4000 then m
  else { m with ram := fun i => if i = a - 0x4000 then v else m.ram i }

/-! ## Z80 CPU registers (src/core/cpu.js) -/

/-- Z80 register file.  The shadow set `a2 … l2` models the fields
`a_ … l_` of the source. -/
structure Z80CPU where
  a : Nat
  f : Nat
  b : Nat
  c : Nat
  d : Nat
  e : Nat
  h : Nat
  l : Nat
  a2 : Nat
  f2 : Nat
  b2 : Nat
  c2 : Nat
  d2 : Nat
  e2 : Nat
  h2 : Nat
  l2 : Nat
  ix : Nat
  iy : Nat
  sp : Nat
  pc : Nat
  i : Nat
  r : Nat
  iff1 : Bool
  iff2 : Bool
  im : Nat
  enableInterruptsPending : Bool
  halted : Bool
  tstates : Nat

/-- `Z80CPU.reset`: the post-reset register file (`sp = 0xffff`, all else
zero or false, `im = 0`). -/
def z80Zero : Z80CPU :=
  { a := 0, f := 0, b := 0, c := 0, d := 0, e := 0, h := 0, l := 0,
    a2 := 0, f2 := 0, b2 := 0, c2 := 0, d2 := 0, e2 := 0, h2 := 0, l2 := 0,
    ix := 0, iy := 0, sp := 0xffff, pc := 0, i := 0, r := 0,
    iff1 := false, iff2 := false, im := 0, enableInterruptsPending := false,
    halted := false, tstates := 0 }

def Z80CPU.FLAG_C : Nat := 0x01
def Z80CPU.FLAG_N : Nat := 0x02
def Z80CPU.FLAG_PV : Nat := 0x04
def Z80CPU.FLAG_X : Nat := 0x08
def Z80CPU.FLAG_H : Nat := 0x10
def Z80CPU.FLAG_Y : Nat := 0x20
def Z80CPU.FLAG_Z : Nat := 0x40
def Z80CPU.FLAG_S : Nat := 0x80

def Z80CPU.getAF (cpu : Z80CPU) : Nat := cpu.a <<< 8 ||| cpu.f
def Z80CPU.getBC (cpu : Z80CPU) : Nat := cpu.b <<< 8 ||| cpu.c
def Z80CPU.getDE (cpu : Z80CPU) : Nat := cpu.d <<< 8 ||| cpu.e
def Z80CPU.getHL (cpu : Z80CPU) : Nat := cpu.h <<< 8 ||| cpu.l

def Z80CPU.setAF (cpu : Z80CPU) (val : Nat) : Z80CPU :=
  { cpu with a := (val >>> 8) % 256, f := val % 256 }

def Z80CPU.setBC (cpu : Z80CPU) (val : Nat) : Z80CPU :=
  { cpu with b := (val >>> 8) % 256, c := val % 256 }

def Z80CPU.setDE (cpu : Z80CPU) (val : Nat) : Z80CPU :=
  { cpu with d := (val >>> 8) % 256, e := val % 256 }

def Z80CPU.setHL (cpu : Z80CPU) (val : Nat) : Z80CPU :=
  { cpu with h := (val >>> 8) % 256, l := val % 256 }

/-- `Z80CPU.getFlag`: `(this.f & flag) !== 0`. -/
def Z80CPU.getFlag (cpu : Z80CPU) (flag : Nat) : Bool :=
  decide (cpu.f &&& flag ≠ 0)

/-- Update of the F register performed by `Z80CPU.setFlag`: `f |= flag`
or `f &= ~flag` (32-bit complement). -/
def flagSet (f flag : Nat) (value : Bool) : Nat :=
  if value then f ||| flag else f &&& (4294967295 ^^^ flag)

/-- `Z80CPU.setFlag`. -/
def Z80CPU.setFlag (cpu : Z80CPU) (flag : Nat) (value : Bool) : Z80CPU :=
  { cpu with f := flagSet cpu.f flag value }

/-- `Z80CPU.incR`: increment the low 7 bits of R, preserving bit 7. -/
def Z80CPU.incR (cpu : Z80CPU) : Z80CPU :=
  { cpu with r := (cpu.r &&& 0x80) ||| ((cpu.r + 1) &&& 0x7f) }

/-! ## Machine: CPU wired to memory -/

/-- Machine state: the CPU together with the memory it is wired to
(`this.memory` in the source, always set by the emulator). -/
structure Machine where
  cpu : Z80CPU
  mem : Memory

/-- `Z80CPU.readMem`: `this.memory.read(addr & 0xffff)`. -/
def Machine.readMem (m : Machine) (addr : Nat) : Nat :=
  m.mem.read (addr % 65536)

/-- `Z80CPU.writeMem`: `this.memory.write(addr & 0xffff, val & 0xff)`. -/
def Machine.writeMem (m : Machine) (addr val : Nat) : Machine :=
  { m with mem := m.mem.write (addr % 65536) (val % 256) }

/-- `Z80CPU.readMemWord`: little-endian 16-bit read. -/
def Machine.readMemWord (m : Machine) (addr : Nat) : Nat :=
  let low := m.readMem addr
  let high := m.readMem ((addr + 1) % 65536)
  high <<< 8 ||| low

/-- `Z80CPU.writeMemWord`: little-endian 16-bit write. -/
def Machine.writeMemWord (m : Machine) (addr val : Nat) : Machine :=
  let m := m.writeMem addr (val % 256)
  m.writeMem ((addr + 1) % 65536) ((val >>> 8) % 256)

/-- `Z80CPU.push`: decrement SP, store high byte, decrement SP, store low
byte.  `(sp - 1) & 0xffff` is written `(sp + 65535) % 65536`, the same
function on `Nat`. -/
def Machine.push (m : Machine) (val : Nat) : Machine :=
  let sp1 := (m.cpu.sp + 65535) % 65536
  let m := { m with cpu := { m.cpu with sp := sp1 } }
  let m := m.writeMem sp1 ((val >>> 8) % 256)
  let sp2 := (m.cpu.sp + 65535) % 65536
  let m := { m with cpu := { m.cpu with sp := sp2 } }
  m.writeMem sp2 (val % 256)

/-- `Z80CPU.pop`: read low byte, increment SP, read high byte, increment
SP; returns the popped word and the new machine. -/
def Machine.pop (m : Machine) : Nat × Machine :=
  let low := m.readMem m.cpu.sp
  let m := { m with cpu := { m.cpu with sp := (m.cpu.sp + 1) % 65536 } }
  let high := m.readMem m.cpu.sp
  let m := { m with cpu := { m.cpu with sp := (m.cpu.sp + 1) % 65536 } }
  (high <<< 8 ||| low, m)

/-- `Z80CPU.interrupt`: maskable interrupt acceptance.  Returns the
machine unchanged unless `iff1` is set and no EI enable is pending. -/
def Machine.interrupt (m : Machine) : Machine :=
  if ¬m.cpu.iff1 ∨ m.cpu.enableInterruptsPending then m
  else
    let m := { m with cpu := { m.cpu with halted := false, iff1 := false, iff2 := false } }
    if m.cpu.im = 0 ∨ m.cpu.im = 1 then
      let m := m.push m.cpu.pc
      { m with cpu := { m.cpu with pc := 0x0038, tstates := m.cpu.tstates + 13 } }
    else
      let vector := m.cpu.i <<< 8 ||| 0xff
      let m := m.push m.cpu.pc
      { m with cpu := { m.cpu with pc := m.readMemWord vector, tstates := m.cpu.tstates + 19 } }

/-! ## Instruction table entries (src/instructions/base.js, extended.js)

Each `instr…` definition is the `execute` body of the corresponding
dispatch-table entry. -/

/-- Opcode 0x00, NOP. -/
def instrNOP (m : Machine) : Machine :=
  { m with cpu := { m.cpu with tstates := m.cpu.tstates + 4 } }

/-- Opcode 0xFB, EI: sets the delayed-enable flag and charges 4 T-states. -/
def instrEI (m : Machine) : Machine :=
  { m with cpu := { m.cpu with enableInterruptsPending := true, tstates := m.cpu.tstates + 4 } }

/-- Opcode 0x7E, LD A,(HL): `cpu.a = cpu.readMem(cpu.getHL()); tstates += 7`. -/
def instrLD_A_HL (m : Machine) : Machine :=
  { m with cpu := { m.cpu with a := m.readMem m.cpu.getHL, tstates := m.cpu.tstates + 7 } }

/-- Opcodes 0xC5/0xD5/0xE5/0xF5, PUSH rp: push the pair value, 11 T-states. -/
def instrPUSH (getPair : Z80CPU → Nat) (m : Machine) : Machine :=
  let m := m.push (getPair m.cpu)
  { m with cpu := { m.cpu with tstates := m.cpu.tstates + 11 } }

/-- Opcodes 0xC1/0xD1/0xE1/0xF1, POP rp: pop into the pair, 10 T-states. -/
def instrPOP (setPair : Z80CPU → Nat → Z80CPU) (m : Machine) : Machine :=
  let (value, m) := m.pop
  { m with cpu := { setPair m.cpu value with tstates := (setPair m.cpu value).tstates + 10 } }

/-- ED 0xA0, LDI: `(HL)→(DE)`, HL+1, DE+1, BC−1; H=0, PV=(BC≠0), N=0,
undocumented Y/X from `n = transferred + A`; 16 T-states. -/
def instrLDI (m : Machine) : Machine :=
  let val := m.readMem m.cpu.getHL
  let m := m.writeMem m.cpu.getDE val
  let m := { m with cpu := m.cpu.setHL ((m.cpu.getHL + 1) % 65536) }
  let m := { m with cpu := m.cpu.setDE ((m.cpu.getDE + 1) % 65536) }
  let m := { m with cpu := m.cpu.setBC ((m.cpu.getBC + 65535) % 65536) }
  let m := { m with cpu := m.cpu.setFlag Z80CPU.FLAG_H false }
  let m := { m with cpu := m.cpu.setFlag Z80CPU.FLAG_PV (decide (m.cpu.getBC ≠ 0)) }
  let m := { m with cpu := m.cpu.setFlag Z80CPU.FLAG_N false }
  let n := val + m.cpu.a
  let m := { m with cpu := m.cpu.setFlag Z80CPU.FLAG_Y (decide (n &&& 0x02 ≠ 0)) }
  let m := { m with cpu := m.cpu.setFlag Z80CPU.FLAG_X (decide (n &&& 0x08 ≠ 0)) }
  { m with cpu := { m.cpu with tstates := m.cpu.tstates + 16 } }

/-- ED 0xB0, LDIR: one repeat step of the block transfer.  Unlike LDI the
source sets PV to `false` unconditionally; it rewinds PC by 2 and charges
21 T-states while BC≠0 after the decrement, else 16. -/
def instrLDIR (m : Machine) : Machine :=
  let val := m.readMem m.cpu.getHL
  let m := m.writeMem m.cpu.getDE val
  let m := { m with cpu := m.cpu.setHL ((m.cpu.getHL + 1) % 65536) }
  let m := { m with cpu := m.cpu.setDE ((m.cpu.getDE + 1) % 65536) }
  let m := { m with cpu := m.cpu.setBC ((m.cpu.getBC + 65535) % 65536) }
  let m :=
    { m with cpu := { m.cpu with
        pc := if m.cpu.getBC ≠ 0 then (m.cpu.pc + 65534) % 65536 else m.cpu.pc,
        tstates := if m.cpu.getBC ≠ 0 then m.cpu.tstates + 21 else m.cpu.tstates + 16 } }
  let m := { m with cpu := m.cpu.setFlag Z80CPU.FLAG_H false }
  let m := { m with cpu := m.cpu.setFlag Z80CPU.FLAG_PV false }
  let m := { m with cpu := m.cpu.setFlag Z80CPU.FLAG_N false }
  let n := val + m.cpu.a
  let m := { m with cpu := m.cpu.setFlag Z80CPU.FLAG_Y (decide (n &&& 0x02 ≠ 0)) }
  { m with cpu := m.cpu.setFlag Z80CPU.FLAG_X (decide (n &&& 0x08 ≠ 0)) }

/-! ## Decoder (src/decoder/decoder.js) -/

/-- Dispatch for the base-table opcodes embedded in this file.  The full
table has 256 entries; only the entries the theorems below exercise are
embedded, and every opcode the theorems feed to the decoder is one of
them (other opcodes fall through unchanged here). -/
def executeOpcode (opcode : Nat) (m : Machine) : Machine :=
  if opcode = 0x00 then instrNOP m
  else if opcode = 0x7e then instrLD_A_HL m
  else if opcode = 0xc5 then instrPUSH Z80CPU.getBC m
  else if opcode = 0xd5 then instrPUSH Z80CPU.getDE m
  else if opcode = 0xe5 then instrPUSH Z80CPU.getHL m
  else if opcode = 0xf5 then instrPUSH Z80CPU.getAF m
  else if opcode = 0xc1 then instrPOP Z80CPU.setBC m
  else if opcode = 0xd1 then instrPOP Z80CPU.setDE m
  else if opcode = 0xe1 then instrPOP Z80CPU.setHL m
  else if opcode = 0xf1 then instrPOP Z80CPU.setAF m
  else if opcode = 0xfb then instrEI m
  else m

/-- `InstructionDecoder.fetchByte`: read at PC, advance PC, bump R. -/
def fetchByte (m : Machine) : Nat × Machine :=
  let byte := m.readMem m.cpu.pc
  (byte, { m with cpu := { m.cpu.incR with pc := (m.cpu.pc + 1) % 65536 } })

/-- `InstructionDecoder.executeInstruction`: one fetch–execute step.  If
halted, charge 4 T-states.  Otherwise fetch and dispatch the opcode, then
— in this same call — apply the EI delayed-enable handling: if
`enableInterruptsPending` is set, set `iff1 = iff2 = true` and clear it. -/
def executeInstruction (m : Machine) : Machine :=
  if m.cpu.halted then
    { m with cpu := { m.cpu with tstates := m.cpu.tstates + 4 } }
  else
    let (opcode, m) := fetchByte m
    let m := executeOpcode opcode m
    if m.cpu.enableInterruptsPending then
      { m with cpu := { m.cpu with iff1 := true, iff2 := true, enableInterruptsPending := false } }
    else m

/-! ## ULA scanline counter (src/spectrum/ula.js) -/

/-- While-loop of `ULA.addCycles`: while `scanlineTStates >= 224`,
subtract 224 and increment the scanline; on reaching 312 wrap to 0 and
request the frame interrupt. -/
def ulaLoop (u : ULAState) : ULAState :=
  if 224 ≤ u.scanlineTStates then
    let sc := u.currentScanline + 1
    ulaLoop { currentScanline := if 312 ≤ sc then 0 else sc,
              scanlineTStates := u.scanlineTStates - 224,
              interruptRequested := if 312 ≤ sc then true else u.interruptRequested }
  else u
termination_by u.scanlineTStates
decreasing_by simp_all; omega

/-- `ULA.addCycles`: add the elapsed cycles, then run the wrap loop. -/
def ulaAddCycles (u : ULAState) (cycles : Nat) : ULAState :=
  ulaLoop { u with scanlineTStates := u.scanlineTStates + cycles }

/-- `ULA.checkInterrupt`: report and clear the request flag.  No caller
exists anywhere in the repository. -/
def ULAState.checkInterrupt (u : ULAState) : Bool × ULAState :=
  (u.interruptRequested, { u with interruptRequested := false })

/-- `ULA.reset` restricted to the scanline fields. -/
def ulaReset : ULAState :=
  { currentScanline := 0, scanlineTStates := 0, interruptRequested := false }

/-- ULA states reachable from reset by `addCycles` calls. -/
inductive UlaReachable : ULAState → Prop
  | init : UlaReachable ulaReset
  | step (u : ULAState) (c : Nat) : UlaReachable u → UlaReachable (ulaAddCycles u c)

/-- Whole-system state for the frame driver: CPU+memory and the ULA. -/
structure Spectrum where
  machine : Machine
  ula : ULAState

/-- End-of-frame interrupt assertion in `ZXSpectrum.executeFrame`
(step "Generate interrupt (50Hz)"): the driver calls
`this.cpu.interrupt()` unconditionally; no statement of `executeFrame`
reads or clears `ula.interruptRequested`. -/
def executeFrameInterrupt (s : Spectrum) : Spectrum :=
  { s with machine := s.machine.interrupt }

/-! ## Tape pulse engine (src/spectrum/tape.js) -/

/-- Tape state-machine states (the source uses strings). -/
inductive TapeSM
  | IDLE
  | PILOT
  | SYNC1
  | SYNC2
  | DATA
  | PURE_TONE
  | PULSE_SEQUENCE
  | DIRECT_RECORDING
  | PAUSE
deriving DecidableEq

/-- Parsed tape block.  `btype` holds the numeric block-type constants of
the source (`BLOCK_STANDARD = 0x10`, …); fields a given block type does
not use stay at their defaults. -/
structure TapeBlock where
  btype : Nat
  data : List Nat := []
  pilotPulse : Nat := 0
  sync1Pulse : Nat := 0
  sync2Pulse : Nat := 0
  zeroPulse : Nat := 0
  onePulse : Nat := 0
  pilotPulses : Nat := 0
  pause : Nat := 0
  usedBits : Nat := 0
  pulseLength : Nat := 0
  pulseCount : Nat := 0
  pulses : List Nat := []
  tStatesPerSample : Nat := 0
  jumpOffset : Int := 0
  repetitions : Nat := 0

/-- Tape player state (the fields of `Tape` the pulse engine touches). -/
structure TapeState where
  blocks : List TapeBlock
  currentBlock : Option TapeBlock
  blockIndex : Nat
  playing : Bool
  paused : Bool
  bitPosition : Nat
  bytePosition : Nat
  currentBit : Nat
  lastEarBit : Nat
  nextEdgeCycle : Option Nat
  lastUpdateCycle : Nat
  state : TapeSM
  pulseCount : Nat
  edgeCount : Nat
  pauseCycles : Int
  pulseIndex : Nat
  pulseSequence : List Nat
  loopStack : List (Nat × Nat)

/-- `Tape.reset`: clear the playback cursors (leaves `playing`,
`blockIndex` and `blocks` alone, as the source does). -/
def tapeResetState (t : TapeState) : TapeState :=
  { t with state := .IDLE, currentBlock := none, lastEarBit := 0,
           nextEdgeCycle := some 0, pulseCount := 0, edgeCount := 0,
           bitPosition := 0, bytePosition := 0, currentBit := 0,
           pauseCycles := 0, pulseIndex := 0 }

/-- `Tape.stop`: stop playback and reset the cursors. -/
def tapeStop (t : TapeState) : TapeState :=
  tapeResetState { t with playing := false, paused := false, blockIndex := 0 }

/-- Timing constant `CYCLES_PER_MS = 3500`. -/
def CYCLES_PER_MS : Nat := 3500

mutual

/-- `Tape.nextBlock`: advance to the block at `blockIndex` and initialise
its playback state.  `cycles` is the value of `this.cpu.cycles` at the
call; `fuel` bounds the recursion of the source through control blocks. -/
def tapeNextBlock : Nat → Nat → TapeState → TapeState
  | 0, _, t => t
  | fuel + 1, cycles, t =>
    if t.blocks.length ≤ t.blockIndex then tapeStop t
    else
      let b := t.blocks.getD t.blockIndex { btype := 0 }
      let t := { t with currentBlock := some b, blockIndex := t.blockIndex + 1,
                        bitPosition := 0, bytePosition := 0, pulseCount := 0,
                        edgeCount := 0, pulseIndex := 0 }
      if b.btype = 0x10 ∨ b.btype = 0x11 then
        { t with state := .PILOT, nextEdgeCycle := some (cycles + b.pilotPulse) }
      else if b.btype = 0x12 then
        { t with state := .PURE_TONE, edgeCount := 0,
                 nextEdgeCycle := some (cycles + b.pulseLength) }
      else if b.btype = 0x13 then
        { t with state := .PULSE_SEQUENCE, pulseIndex := 0, pulseSequence := b.pulses,
                 nextEdgeCycle := some (cycles + b.pulses.headD 0) }
      else if b.btype = 0x14 then
        let t := { t with state := .DATA, bitPosition := 0, bytePosition := 0,
                          pulseCount := 0 }
        if 0 < b.data.length then
          let bit := (b.data.headD 0 >>> 7) &&& 1
          let len := if bit = 1 then b.onePulse else b.zeroPulse
          { t with currentBit := bit, nextEdgeCycle := some (cycles + len) }
        else tapeHandleBlockEnd fuel cycles t
      else if b.btype = 0x15 then
        { t with state := .DIRECT_RECORDING, bitPosition := 0, bytePosition := 0,
                 nextEdgeCycle := some (cycles + b.tStatesPerSample) }
      else if b.btype = 0x20 then
        let t := { t with state := .PAUSE, pauseCycles := (b.pause : Int) * CYCLES_PER_MS }
        if b.pause = 0 then tapeStop t else t
      else if b.btype = 0x24 then
        let t := { t with loopStack := (t.blockIndex - 1, b.repetitions) :: t.loopStack }
        tapeNextBlock fuel cycles t
      else if b.btype = 0x25 then
        let t :=
          match t.loopStack with
          | [] => t
          | (idx, counter) :: rest =>
            if 1 < counter then { t with blockIndex := idx + 1, loopStack := (idx, counter - 1) :: rest }
            else { t with loopStack := rest }
        tapeNextBlock fuel cycles t
      else if b.btype = 0x23 then
        tapeNextBlock fuel cycles { t with blockIndex := ((t.blockIndex : Int) + b.jumpOffset).toNat }
      else if b.btype = 0x2A then tapeStop t
      else tapeNextBlock fuel cycles t

/-- `Tape.handleBlockEnd`: enter the pause after the block (setting the
next edge to `Infinity`, i.e. `none`) or advance immediately. -/
def tapeHandleBlockEnd : Nat → Nat → TapeState → TapeState
  | 0, _, t => t
  | fuel + 1, cycles, t =>
    match t.currentBlock with
    | none => t
    | some block =>
      if 0 < block.pause then
        { t with state := .PAUSE, pauseCycles := (block.pause : Int) * CYCLES_PER_MS,
                 nextEdgeCycle := none }
      else tapeNextBlock fuel cycles t

end

/-- Advance `nextEdgeCycle` by `d` (`this.nextEdgeCycle += d`). -/
def bumpEdge (o : Option Nat) (d : Nat) : Option Nat :=
  match o with
  | some n => some (n + d)
  | none => none

/-- `Tape.processEdge`: per-state transition for Standard/Turbo blocks,
run once per emitted edge. -/
def tapeProcessEdge (fuel cycles : Nat) (block : TapeBlock) (t : TapeState) : TapeState :=
  match t.state with
  | .PILOT =>
    let t := { t with nextEdgeCycle := bumpEdge t.nextEdgeCycle block.pilotPulse,
                      edgeCount := t.edgeCount + 1 }
    if block.pilotPulses * 2 ≤ t.edgeCount then
      { t with state := .SYNC1, nextEdgeCycle := some (cycles + block.sync1Pulse) }
    else t
  | .SYNC1 =>
    { t with state := .SYNC2, nextEdgeCycle := some (cycles + block.sync2Pulse) }
  | .SYNC2 =>
    let t := { t with state := .DATA, bytePosition := 0, bitPosition := 0, pulseCount := 0 }
    if 0 < block.data.length then
      let bit := (block.data.headD 0 >>> 7) &&& 1
      let len := if bit = 1 then block.onePulse else block.zeroPulse
      { t with currentBit := bit, nextEdgeCycle := some (cycles + len) }
    else tapeHandleBlockEnd fuel cycles t
  | .DATA =>
    let t := { t with pulseCount := t.pulseCount + 1 }
    if t.pulseCount < 2 then
      let len := if t.currentBit = 1 then block.onePulse else block.zeroPulse
      { t with nextEdgeCycle := some (cycles + len) }
    else
      let t := { t with pulseCount := 0, bitPosition := t.bitPosition + 1 }
      if 8 ≤ t.bitPosition then
        let t := { t with bitPosition := 0, bytePosition := t.bytePosition + 1 }
        if block.data.length ≤ t.bytePosition then tapeHandleBlockEnd fuel cycles t
        else
          let bitsInByte := if t.bytePosition = block.data.length - 1 then block.usedBits else 8
          if t.bitPosition < bitsInByte then
            let byte := block.data.getD t.bytePosition 0
            let bit := (byte >>> (7 - t.bitPosition)) &&& 1
            let len := if bit = 1 then block.onePulse else block.zeroPulse
            { t with currentBit := bit, nextEdgeCycle := some (cycles + len) }
          else tapeHandleBlockEnd fuel cycles t
      else
        let bitsInByte := if t.bytePosition = block.data.length - 1 then block.usedBits else 8
        if t.bitPosition < bitsInByte then
          let byte := block.data.getD t.bytePosition 0
          let bit := (byte >>> (7 - t.bitPosition)) &&& 1
          let len := if bit = 1 then block.onePulse else block.zeroPulse
          { t with currentBit := bit, nextEdgeCycle := some (cycles + len) }
        else tapeHandleBlockEnd fuel cycles t
  | _ => t

/-- `Tape.processPureTone`. -/
def tapeProcessPureTone (fuel cycles : Nat) (block : TapeBlock) (t : TapeState) : TapeState :=
  let t := { t with edgeCount := t.edgeCount + 1,
                    nextEdgeCycle := bumpEdge t.nextEdgeCycle block.pulseLength }
  if block.pulseCount * 2 ≤ t.edgeCount then tapeHandleBlockEnd fuel cycles t else t

/-- `Tape.processPulseSequence`. -/
def tapeProcessPulseSequence (fuel cycles : Nat) (t : TapeState) : TapeState :=
  let t := { t with pulseIndex := t.pulseIndex + 1 }
  if t.pulseSequence.length ≤ t.pulseIndex then tapeHandleBlockEnd fuel cycles t
  else { t with nextEdgeCycle := some (cycles + t.pulseSequence.getD t.pulseIndex 0) }

/-- `Tape.processPureData`. -/
def tapeProcessPureData (fuel cycles : Nat) (block : TapeBlock) (t : TapeState) : TapeState :=
  let t := { t with pulseCount := t.pulseCount + 1 }
  if t.pulseCount < 2 then
    let len := if t.currentBit = 1 then block.onePulse else block.zeroPulse
    { t with nextEdgeCycle := some (cycles + len) }
  else
    let t := { t with pulseCount := 0, bitPosition := t.bitPosition + 1 }
    if 8 ≤ t.bitPosition then
      let t := { t with bitPosition := 0, bytePosition := t.bytePosition + 1 }
      if block.data.length ≤ t.bytePosition then tapeHandleBlockEnd fuel cycles t
      else
        let bitsInByte := if t.bytePosition = block.data.length - 1 then block.usedBits else 8
        if t.bitPosition < bitsInByte then
          let byte := block.data.getD t.bytePosition 0
          let bit := (byte >>> (7 - t.bitPosition)) &&& 1
          let len := if bit = 1 then block.onePulse else block.zeroPulse
          { t with currentBit := bit, nextEdgeCycle := some (cycles + len) }
        else tapeHandleBlockEnd fuel cycles t
    else
      let bitsInByte := if t.bytePosition = block.data.length - 1 then block.usedBits else 8
      if t.bitPosition < bitsInByte then
        let byte := block.data.getD t.bytePosition 0
        let bit := (byte >>> (7 - t.bitPosition)) &&& 1
        let len := if bit = 1 then block.onePulse else block.zeroPulse
        { t with currentBit := bit, nextEdgeCycle := some (cycles + len) }
      else tapeHandleBlockEnd fuel cycles t

/-- `Tape.processDirectRecording`. -/
def tapeProcessDirectRecording (fuel cycles : Nat) (block : TapeBlock) (t : TapeState) : TapeState :=
  let byteIndex := t.bitPosition / 8
  let bitInByte := 7 - t.bitPosition % 8
  if block.data.length ≤ byteIndex then tapeHandleBlockEnd fuel cycles t
  else
    let byte := block.data.getD byteIndex 0
    let t := { t with lastEarBit := (byte >>> bitInByte) &&& 1, bitPosition := t.bitPosition + 1 }
    let totalBits :=
      if byteIndex = block.data.length - 1 then (block.data.length - 1) * 8 + block.usedBits
      else block.data.length * 8
    if totalBits ≤ t.bitPosition then tapeHandleBlockEnd fuel cycles t
    else { t with nextEdgeCycle := some (cycles + block.tStatesPerSample) }

/-- Edge-due test `cycles >= this.nextEdgeCycle` (false against
`Infinity`). -/
def edgeDue (cycles : Nat) (o : Option Nat) : Bool :=
  match o with
  | some n => decide (n ≤ cycles)
  | none => false

/-- While-loop of `Tape.updateDataBlock`: `block` is the local of the source,
`const block = this.currentBlock`, captured once before the loop. -/
def tapeEdgeLoop : Nat → Nat → TapeBlock → TapeState → TapeState
  | 0, _, _, t => t
  | fuel + 1, cycles, block, t =>
    if edgeDue cycles t.nextEdgeCycle ∧ t.state ≠ .PAUSE ∧ t.state ≠ .IDLE then
      let t := { t with lastEarBit := 1 - t.lastEarBit }
      let t :=
        if block.btype = 0x12 then tapeProcessPureTone fuel cycles block t
        else if block.btype = 0x13 then tapeProcessPulseSequence fuel cycles t
        else if block.btype = 0x14 then tapeProcessPureData fuel cycles block t
        else if block.btype = 0x15 then tapeProcessDirectRecording fuel cycles block t
        else tapeProcessEdge fuel cycles block t
      tapeEdgeLoop fuel cycles block t
    else t

/-- `Tape.updateDataBlock`. -/
def tapeUpdateDataBlock (fuel cycles : Nat) (t : TapeState) : TapeState :=
  match t.currentBlock with
  | none => t
  | some block => tapeEdgeLoop fuel cycles block t

/-- `Tape.updatePauseState`. -/
def tapeUpdatePauseState (fuel cycles : Nat) (t : TapeState) : TapeState :=
  if 0 < t.pauseCycles then
    let elapsed : Int := (cycles : Int) - (t.lastUpdateCycle : Int)
    let t := { t with pauseCycles := t.pauseCycles - elapsed, lastEarBit := 0 }
    if t.pauseCycles ≤ 0 then
      tapeNextBlock fuel cycles { t with pauseCycles := 0, state := .IDLE }
    else t
  else tapeNextBlock fuel cycles { t with state := .IDLE }

/-- `Tape.update`: returns the EAR input bit for the ULA and the updated
player state. -/
def tapeUpdate (fuel cycles : Nat) (t : TapeState) : Nat × TapeState :=
  if ¬t.playing ∨ t.paused ∨ t.currentBlock.isNone then (t.lastEarBit, t)
  else if t.state = .PAUSE then
    let t := tapeUpdatePauseState fuel cycles t
    let t := { t with lastUpdateCycle := cycles }
    (t.lastEarBit, t)
  else
    let bt := (t.currentBlock.getD { btype := 0 }).btype
    let t :=
      if bt = 0x10 ∨ bt = 0x11 then tapeUpdateDataBlock fuel cycles t
      else if bt = 0x20 then tapeUpdatePauseState fuel cycles t
      else t
    let t := { t with lastUpdateCycle := cycles }
    (t.lastEarBit, t)

/-- `Tape.play`: start playback at the current CPU cycle count. -/
def tapePlay (fuel cycles : Nat) (t : TapeState) : TapeState :=
  if t.blocks.length = 0 then t
  else
    let t := { t with playing := true, paused := false, lastUpdateCycle := cycles }
    if t.currentBlock.isNone then tapeNextBlock fuel cycles t else t

/-! ## Arithmetic and bit-level helper lemmas -/

theorem lor_shift8 (hi lo : Nat) (h : lo < 256) : hi <<< 8 ||| lo = hi * 256 + lo := by
  have h2 : lo < 2 ^ 8 := by omega
  calc hi <<< 8 ||| lo = 2 ^ 8 * hi ||| lo := by rw [Nat.shiftLeft_eq, Nat.mul_comm]
    _ = 2 ^ 8 * hi + lo := (Nat.mul_add_lt_is_or h2 hi).symm
    _ = hi * 256 + lo := by ring

/-- Splitting a 16-bit value into bytes and recombining them is reduction
modulo 2^16. -/
theorem compose16 (v : Nat) : ((v >>> 8) % 256) <<< 8 ||| v % 256 = v % 65536 := by
  rw [lor_shift8 _ _ (Nat.mod_lt _ (by norm_num))]
  rw [Nat.shiftRight_eq_div_pow]
  omega

theorem flagSet_testBit_same (f k : Nat) (b : Bool) (hk : k < 32) :
    (flagSet f (2 ^ k) b).testBit k = b := by
  unfold flagSet
  have h32 : (4294967295 : Nat) = 2 ^ 32 - 1 := by norm_num
  cases b with
  | true => simp
  | false =>
    simp only [Bool.false_eq_true, if_false, Nat.testBit_and, Nat.testBit_xor, h32,
      Nat.testBit_two_pow_sub_one, Nat.testBit_two_pow]
    simp [hk]

theorem flagSet_testBit_other (f k j : Nat) (b : Bool) (h : k ≠ j) (hj : j < 32) :
    (flagSet f (2 ^ k) b).testBit j = f.testBit j := by
  unfold flagSet
  have h32 : (4294967295 : Nat) = 2 ^ 32 - 1 := by norm_num
  cases b with
  | true => simp [Nat.testBit_two_pow, h]
  | false =>
    simp only [Bool.false_eq_true, if_false, Nat.testBit_and, Nat.testBit_xor, h32,
      Nat.testBit_two_pow_sub_one, Nat.testBit_two_pow]
    simp [hj, h]

theorem getFlag_eq_testBit (cpu : Z80CPU) (k : Nat) :
    cpu.getFlag (2 ^ k) = cpu.f.testBit k := by
  unfold Z80CPU.getFlag
  rw [Nat.and_two_pow]
  cases h : cpu.f.testBit k <;> simp [h]

theorem getFlag_H (cpu : Z80CPU) : cpu.getFlag Z80CPU.FLAG_H = cpu.f.testBit 4 :=
  getFlag_eq_testBit cpu 4

theorem getFlag_N (cpu : Z80CPU) : cpu.getFlag Z80CPU.FLAG_N = cpu.f.testBit 1 :=
  getFlag_eq_testBit cpu 1

theorem getFlag_PV (cpu : Z80CPU) : cpu.getFlag Z80CPU.FLAG_PV = cpu.f.testBit 2 :=
  getFlag_eq_testBit cpu 2

theorem fsame_H (f : Nat) (b : Bool) : (flagSet f Z80CPU.FLAG_H b).testBit 4 = b :=
  flagSet_testBit_same f 4 b (by norm_num)

theorem fsame_N (f : Nat) (b : Bool) : (flagSet f Z80CPU.FLAG_N b).testBit 1 = b :=
  flagSet_testBit_same f 1 b (by norm_num)

theorem fsame_PV (f : Nat) (b : Bool) : (flagSet f Z80CPU.FLAG_PV b).testBit 2 = b :=
  flagSet_testBit_same f 2 b (by norm_num)

theorem fskip_X_4 (f : Nat) (b : Bool) : (flagSet f Z80CPU.FLAG_X b).testBit 4 = f.testBit 4 :=
  flagSet_testBit_other f 3 4 b (by norm_num) (by norm_num)

theorem fskip_Y_4 (f : Nat) (b : Bool) : (flagSet f Z80CPU.FLAG_Y b).testBit 4 = f.testBit 4 :=
  flagSet_testBit_other f 5 4 b (by norm_num) (by norm_num)

theorem fskip_N_4 (f : Nat) (b : Bool) : (flagSet f Z80CPU.FLAG_N b).testBit 4 = f.testBit 4 :=
  flagSet_testBit_other f 1 4 b (by norm_num) (by norm_num)

theorem fskip_PV_4 (f : Nat) (b : Bool) : (flagSet f Z80CPU.FLAG_PV b).testBit 4 = f.testBit 4 :=
  flagSet_testBit_other f 2 4 b (by norm_num) (by norm_num)

theorem fskip_X_1 (f : Nat) (b : Bool) : (flagSet f Z80CPU.FLAG_X b).testBit 1 = f.testBit 1 :=
  flagSet_testBit_other f 3 1 b (by norm_num) (by norm_num)

theorem fskip_Y_1 (f : Nat) (b : Bool) : (flagSet f Z80CPU.FLAG_Y b).testBit 1 = f.testBit 1 :=
  flagSet_testBit_other f 5 1 b (by norm_num) (by norm_num)

theorem fskip_X_2 (f : Nat) (b : Bool) : (flagSet f Z80CPU.FLAG_X b).testBit 2 = f.testBit 2 :=
  flagSet_testBit_other f 3 2 b (by norm_num) (by norm_num)

theorem fskip_Y_2 (f : Nat) (b : Bool) : (flagSet f Z80CPU.FLAG_Y b).testBit 2 = f.testBit 2 :=
  flagSet_testBit_other f 5 2 b (by norm_num) (by norm_num)

theorem fskip_N_2 (f : Nat) (b : Bool) : (flagSet f Z80CPU.FLAG_N b).testBit 2 = f.testBit 2 :=
  flagSet_testBit_other f 1 2 b (by norm_num) (by norm_num)

/-! ## C7: ROM is write-protected -/

/-- Applying a sequence of `Memory.write` calls, first to last. -/
def applyWrites (m : Memory) (ws : List (Nat × Nat)) : Memory :=
  ws.foldl (fun m wv => m.write wv.1 wv.2) m

theorem write_rom_eq (m : Memory) (addr v : Nat) : (m.write addr v).rom = m.rom := by
  unfold Memory.write
  by_cases h : addr % 65536 < 16384 <;> simp [h]

theorem applyWrites_rom_eq (m : Memory) (ws : List (Nat × Nat)) :
    (applyWrites m ws).rom = m.rom := by
  induction ws generalizing m with
  | nil => rfl
  | cons w ws ih => rw [applyWrites, List.foldl_cons, ← applyWrites, ih, write_rom_eq]

theorem read_low_eq_rom (m : Memory) (addr : Nat) (h : addr % 65536 < 0x4000) :
    m.read addr = m.rom (addr % 65536) % 256 := by
  unfold Memory.read
  simp [h]

/-- C7: a `Memory.write` to any address whose 16-bit value lies below
0x4000 is a no-op on the whole memory state; after an arbitrary sequence
of writes (to any addresses) the ROM array is unchanged and a read of any
address below 0x4000 returns the same ROM byte as before. -/
theorem C7_rom_write_noop (m : Memory) (ws : List (Nat × Nat)) (addr v a : Nat)
    (haddr : addr % 65536 < 0x4000) (ha : a % 65536 < 0x4000) :
    m.write addr v = m ∧
    (applyWrites m ws).rom = m.rom ∧
    (applyWrites m ws).read a = m.read a := by
  refine ⟨?_, applyWrites_rom_eq m ws, ?_⟩
  · unfold Memory.write
    simp [haddr]
  · rw [read_low_eq_rom _ _ ha, read_low_eq_rom _ _ ha, applyWrites_rom_eq]

/-- Witness for C7 at a concrete memory, write sequence and address. -/
theorem C7_rom_write_noop_witness :
    (Memory.mk (fun _ => 7) (fun _ => 0)).write 0x1000 5 = Memory.mk (fun _ => 7) (fun _ => 0) ∧
    (applyWrites (Memory.mk (fun _ => 7) (fun _ => 0)) [(0x1000, 5), (0x8123, 9)]).rom =
      (Memory.mk (fun _ => 7) (fun _ => 0)).rom ∧
    (applyWrites (Memory.mk (fun _ => 7) (fun _ => 0)) [(0x1000, 5), (0x8123, 9)]).read 0x1000 =
      (Memory.mk (fun _ => 7) (fun _ => 0)).read 0x1000 :=
  C7_rom_write_noop _ _ 0x1000 5 0x1000 (by decide) (by decide)

/-! ## C10: interrupt with interrupts disabled is a no-op -/

/-- C10: when `iff1` is clear or an EI enable is pending, `interrupt()`
returns without touching any CPU register, flag, the halted flag, the
T-state counter, or memory: the machine state is unchanged. -/
theorem C10_interrupt_disabled_noop (m : Machine)
    (h : m.cpu.iff1 = false ∨ m.cpu.enableInterruptsPending = true) :
    m.interrupt = m := by
  unfold Machine.interrupt
  have hc : ¬m.cpu.iff1 ∨ m.cpu.enableInterruptsPending = true := by
    rcases h with h | h
    · exact Or.inl (by simp [h])
    · exact Or.inr h
  rcases hc with h' | h' <;> simp [h']

/-- Witness for C10 at a concrete machine with `iff1 = false`. -/
theorem C10_interrupt_disabled_noop_witness :
    (Machine.mk z80Zero (Memory.mk (fun _ => 0) (fun _ => 0))).interrupt =
      Machine.mk z80Zero (Memory.mk (fun _ => 0) (fun _ => 0)) :=
  C10_interrupt_disabled_noop _ (Or.inl rfl)

/-! ## C2: contention is computed but never charged -/

/-- Concrete ULA position inside active display: scanline 100, scanline
T-state 0 (contention pattern index 0, delay 6). -/
def c2ULA : ULAState :=
  { currentScanline := 100, scanlineTStates := 0, interruptRequested := false }

/-- Concrete machine about to execute LD A,(HL) with HL = 0x4000 (a
contended address): opcode 0x7E at PC = 0x9000 (RAM). -/
def c2M : Machine :=
  { cpu := { z80Zero with h := 0x40, l := 0, pc := 0x9000 },
    mem := { rom := fun _ => 0, ram := fun a => if a = 0x5000 then 0x7e else 0x99 } }

/-- C2: at the concrete contended access (address 0x4000, scanline 100,
scanline T-state 0) `getContentionDelay` yields 6, but executing
LD A,(HL) advances the CPU T-state counter by exactly the base cost 7:
`Memory.read` discards the delay it computes and no caller of
`readMem`/`writeMem` adds any contention delay to `tstates`, so the
claimed charge to the CPU counter never happens. -/
theorem C2_contention_not_charged :
    Memory.getContentionDelay c2ULA 0x4000 = 6 ∧
    (executeInstruction c2M).cpu.tstates = c2M.cpu.tstates + 7 ∧
    (executeInstruction c2M).cpu.a = 0x99 := by
  decide

/-! ## C1: the EI one-instruction delay is consumed by EI itself -/

/-- Concrete machine about to execute EI: opcode 0xFB at PC = 0, IM 1,
interrupts disabled, no enable pending. -/
def c1M : Machine :=
  { cpu := { z80Zero with im := 1, sp := 0x8000 },
    mem := { rom := fun a => if a = 0 then 0xfb else 0, ram := fun _ => 0 } }

/-- C1: after the `executeInstruction` call that executes EI — before any
following instruction runs — `iff1` and `iff2` are already true and
`ei_pending` is already clear, because `executeInstruction` applies the
delayed-enable block at the end of the same call that ran EI.  An
interrupt asserted at that point is therefore accepted (PC vectors to
0x0038, 13 T-states charged), contradicting the claimed EI;RETI
atomicity. -/
theorem C1_ei_enable_immediate :
    (executeInstruction c1M).cpu.iff1 = true ∧
    (executeInstruction c1M).cpu.iff2 = true ∧
    (executeInstruction c1M).cpu.enableInterruptsPending = false ∧
    (executeInstruction c1M).cpu.pc = 1 ∧
    ((executeInstruction c1M).interrupt).cpu.pc = 0x0038 ∧
    ((executeInstruction c1M).interrupt).cpu.tstates =
      (executeInstruction c1M).cpu.tstates + 13 := by
  decide

/-! ## C3: interrupt acceptance -/

set_option maxRecDepth 8192 in
/-- C3: when `iff1` is set with no EI enable pending, `interrupt()`
clears the halted flag, pushes PC (stack pointer and memory change
exactly as `push pc` does), clears IFF1 and IFF2, and in IM 0/1 sets
PC = 0x0038 charging 13 T-states, while in IM 2 sets PC to the word read
at `(I<<8)|0xFF` (from the post-push memory) charging 19 T-states. -/
theorem C3_interrupt_accept (m : Machine) (h1 : m.cpu.iff1 = true)
    (h2 : m.cpu.enableInterruptsPending = false) :
    m.interrupt.cpu.halted = false ∧
    m.interrupt.cpu.iff1 = false ∧
    m.interrupt.cpu.iff2 = false ∧
    m.interrupt.cpu.sp = (m.push m.cpu.pc).cpu.sp ∧
    m.interrupt.mem = (m.push m.cpu.pc).mem ∧
    ((m.cpu.im = 0 ∨ m.cpu.im = 1) →
      m.interrupt.cpu.pc = 0x0038 ∧
      m.interrupt.cpu.tstates = m.cpu.tstates + 13) ∧
    (m.cpu.im = 2 →
      m.interrupt.cpu.pc = (m.push m.cpu.pc).readMemWord (m.cpu.i <<< 8 ||| 0xff) ∧
      m.interrupt.cpu.tstates = m.cpu.tstates + 19) := by
  obtain ⟨⟨ra, rf, rb, rc, rd, re, rh, rl, sa, sf, sb, sc, sd, se, sh, sl,
    ix, iy, sp, pc, ri, rr, i1, i2, im, eip, hl, ts⟩, mem⟩ := m
  simp only at h1 h2
  subst h1 h2
  by_cases him : im = 0 ∨ im = 1
  · refine ⟨?_, ?_, ?_, ?_, ?_, fun _ => ⟨?_, ?_⟩,
      fun hc => by rcases him with h | h <;> rw [h] at hc <;> exact absurd hc (by norm_num)⟩ <;>
      simp [Machine.interrupt, Machine.push, Machine.writeMem, him]
  · refine ⟨?_, ?_, ?_, ?_, ?_, fun hc => absurd hc him, fun _ => ⟨?_, ?_⟩⟩ <;>
      simp [Machine.interrupt, Machine.push, Machine.writeMem, Machine.readMemWord,
        Machine.readMem, him]

/-- Concrete machine for the C3 witness: IM 1, interrupts enabled. -/
def c3M : Machine :=
  { cpu := { z80Zero with iff1 := true, iff2 := true, im := 1, pc := 0x1234, sp := 0x8000 },
    mem := { rom := fun _ => 0, ram := fun _ => 0 } }

/-- Witness for C3 at a concrete machine with IM 1 and interrupts
enabled. -/
theorem C3_interrupt_accept_witness :
    c3M.interrupt.cpu.halted = false ∧
    c3M.interrupt.cpu.iff1 = false ∧
    c3M.interrupt.cpu.iff2 = false ∧
    c3M.interrupt.cpu.sp = (c3M.push c3M.cpu.pc).cpu.sp ∧
    c3M.interrupt.mem = (c3M.push c3M.cpu.pc).mem ∧
    ((c3M.cpu.im = 0 ∨ c3M.cpu.im = 1) →
      c3M.interrupt.cpu.pc = 0x0038 ∧
      c3M.interrupt.cpu.tstates = c3M.cpu.tstates + 13) ∧
    (c3M.cpu.im = 2 →
      c3M.interrupt.cpu.pc = (c3M.push c3M.cpu.pc).readMemWord (c3M.cpu.i <<< 8 ||| 0xff) ∧
      c3M.interrupt.cpu.tstates = c3M.cpu.tstates + 19) :=
  C3_interrupt_accept c3M rfl rfl

/-! ## C9: PUSH rp; POP rp -/

theorem mod256_mod256 (x : Nat) : x % 256 % 256 = x % 256 :=
  Nat.mod_mod_of_dvd x dvd_rfl

theorem mod65536_mod65536 (x : Nat) : x % 65536 % 65536 = x % 65536 :=
  Nat.mod_mod_of_dvd x dvd_rfl

theorem read_write_same (mem : Memory) (a v : Nat) (ha : 0x4000 ≤ a % 65536) :
    (mem.write a v).read a = v % 256 := by
  unfold Memory.write Memory.read
  rw [if_neg (by omega)]
  dsimp only
  rw [if_neg (by omega)]
  dsimp only
  rw [if_pos rfl]
  exact Nat.mod_mod_of_dvd v dvd_rfl

theorem read_write_other (mem : Memory) (a b v : Nat) (h : ¬a % 65536 = b % 65536) :
    (mem.write a v).read b = mem.read b := by
  unfold Memory.write Memory.read
  by_cases h1 : a % 65536 < 16384
  · rw [if_pos h1]
  · rw [if_neg h1]
    dsimp only
    by_cases h2 : b % 65536 < 16384
    · rw [if_pos h2, if_pos h2]
    · rw [if_neg h2, if_neg h2]
      have hne : ¬b % 65536 - 16384 = a % 65536 - 16384 := by omega
      rw [if_neg hne]

theorem getBC_setBC (cpu : Z80CPU) (v : Nat) : (cpu.setBC v).getBC = v % 65536 := by
  unfold Z80CPU.setBC Z80CPU.getBC
  exact compose16 v

theorem getDE_setDE (cpu : Z80CPU) (v : Nat) : (cpu.setDE v).getDE = v % 65536 := by
  unfold Z80CPU.setDE Z80CPU.getDE
  exact compose16 v

theorem getHL_setHL (cpu : Z80CPU) (v : Nat) : (cpu.setHL v).getHL = v % 65536 := by
  unfold Z80CPU.setHL Z80CPU.getHL
  exact compose16 v

theorem getAF_setAF (cpu : Z80CPU) (v : Nat) : (cpu.setAF v).getAF = v % 65536 := by
  unfold Z80CPU.setAF Z80CPU.getAF
  exact compose16 v

/-- C9 (amended): for every CPU state whose 8-bit register halves are in
byte range, whose SP is a 16-bit value, and whose two stack bytes
(SP−1 and SP−2 mod 2^16) fall in RAM (at or above 0x4000), executing
PUSH rp; POP rp for rp ∈ {BC, DE, HL, AF} restores the pair and SP.
When a stack byte falls in ROM the pair is not restored
(see the counterexample theorem); SP is restored in every case. -/
theorem C9_push_pop_roundtrip (m : Machine)
    (hb : m.cpu.b < 256) (hc : m.cpu.c < 256) (hd : m.cpu.d < 256) (he : m.cpu.e < 256)
    (hh : m.cpu.h < 256) (hl : m.cpu.l < 256) (ha : m.cpu.a < 256) (hf : m.cpu.f < 256)
    (hsp : m.cpu.sp < 65536)
    (h1 : 0x4000 ≤ (m.cpu.sp + 65535) % 65536)
    (h2 : 0x4000 ≤ (m.cpu.sp + 65534) % 65536) :
    ((instrPOP Z80CPU.setBC (instrPUSH Z80CPU.getBC m)).cpu.getBC = m.cpu.getBC ∧
      (instrPOP Z80CPU.setBC (instrPUSH Z80CPU.getBC m)).cpu.sp = m.cpu.sp) ∧
    ((instrPOP Z80CPU.setDE (instrPUSH Z80CPU.getDE m)).cpu.getDE = m.cpu.getDE ∧
      (instrPOP Z80CPU.setDE (instrPUSH Z80CPU.getDE m)).cpu.sp = m.cpu.sp) ∧
    ((instrPOP Z80CPU.setHL (instrPUSH Z80CPU.getHL m)).cpu.getHL = m.cpu.getHL ∧
      (instrPOP Z80CPU.setHL (instrPUSH Z80CPU.getHL m)).cpu.sp = m.cpu.sp) ∧
    ((instrPOP Z80CPU.setAF (instrPUSH Z80CPU.getAF m)).cpu.getAF = m.cpu.getAF ∧
      (instrPOP Z80CPU.setAF (instrPUSH Z80CPU.getAF m)).cpu.sp = m.cpu.sp) := by
  obtain ⟨⟨qa, qf, qb, qc, qd, qe, qh, ql, wa, wf, wb, wc, wd, we, wh, wl,
    qix, qiy, qsp, qpc, qi, qr, j1, j2, jim, jeip, jhl, jts⟩, mem⟩ := m
  simp only at hb hc hd he hh hl ha hf hsp h1 h2
  have e2b : ((qsp + 65535) % 65536 + 65535) % 65536 = (qsp + 65534) % 65536 := by omega
  have e3b : ((qsp + 65534) % 65536 + 1) % 65536 = (qsp + 65535) % 65536 := by omega
  have e5 : ((qsp + 65535) % 65536 + 1) % 65536 = qsp := by omega
  have hne : ¬(qsp + 65534) % 65536 % 65536 = (qsp + 65535) % 65536 % 65536 := by omega
  refine ⟨?_, ?_, ?_, ?_⟩
  · simp only [instrPUSH, instrPOP, Machine.push, Machine.pop, Machine.writeMem,
      Machine.readMem, mod65536_mod65536, e2b, e3b, e5, mod256_mod256]
    rw [read_write_same _ _ _ (by omega)]
    rw [read_write_other _ _ _ _ hne]
    rw [read_write_same _ _ _ (by omega)]
    constructor
    · simp only [Z80CPU.getBC, Z80CPU.setBC]
      rw [mod256_mod256, mod256_mod256, compose16, compose16]
      rw [lor_shift8 _ _ hc]
      omega
    · simp only [Z80CPU.setBC]
  · simp only [instrPUSH, instrPOP, Machine.push, Machine.pop, Machine.writeMem,
      Machine.readMem, mod65536_mod65536, e2b, e3b, e5, mod256_mod256]
    rw [read_write_same _ _ _ (by omega)]
    rw [read_write_other _ _ _ _ hne]
    rw [read_write_same _ _ _ (by omega)]
    constructor
    · simp only [Z80CPU.getDE, Z80CPU.setDE]
      rw [mod256_mod256, mod256_mod256, compose16, compose16]
      rw [lor_shift8 _ _ he]
      omega
    · simp only [Z80CPU.setDE]
  · simp only [instrPUSH, instrPOP, Machine.push, Machine.pop, Machine.writeMem,
      Machine.readMem, mod65536_mod65536, e2b, e3b, e5, mod256_mod256]
    rw [read_write_same _ _ _ (by omega)]
    rw [read_write_other _ _ _ _ hne]
    rw [read_write_same _ _ _ (by omega)]
    constructor
    · simp only [Z80CPU.getHL, Z80CPU.setHL]
      rw [mod256_mod256, mod256_mod256, compose16, compose16]
      rw [lor_shift8 _ _ hl]
      omega
    · simp only [Z80CPU.setHL]
  · simp only [instrPUSH, instrPOP, Machine.push, Machine.pop, Machine.writeMem,
      Machine.readMem, mod65536_mod65536, e2b, e3b, e5, mod256_mod256]
    rw [read_write_same _ _ _ (by omega)]
    rw [read_write_other _ _ _ _ hne]
    rw [read_write_same _ _ _ (by omega)]
    constructor
    · simp only [Z80CPU.getAF, Z80CPU.setAF]
      rw [mod256_mod256, mod256_mod256, compose16, compose16]
      rw [lor_shift8 _ _ hf]
      omega
    · simp only [Z80CPU.setAF]

/-- Concrete machine whose stack lies in ROM: SP = 2, BC = 0x1234, ROM
bytes all zero. -/
def c9M : Machine :=
  { cpu := { z80Zero with sp := 2, b := 0x12, c := 0x34 },
    mem := { rom := fun _ => 0, ram := fun _ => 0 } }

/-- Counterexample to C9 as stated: with SP = 2 the two stack bytes land
in ROM, the pushed bytes are silently dropped, and POP reads ROM zeros,
so PUSH BC; POP BC does not restore BC. -/
theorem C9_push_pop_rom_counterexample :
    (instrPOP Z80CPU.setBC (instrPUSH Z80CPU.getBC c9M)).cpu.getBC = 0 ∧
    c9M.cpu.getBC = 0x1234 ∧
    ¬(instrPOP Z80CPU.setBC (instrPUSH Z80CPU.getBC c9M)).cpu.getBC = c9M.cpu.getBC := by
  decide

/-- Concrete machine for the C9 witness: SP = 0x8000 (stack in RAM). -/
def c9W : Machine :=
  { cpu := { z80Zero with sp := 0x8000, b := 0x12, c := 0x34, d := 0x56, e := 0x78,
                          h := 0x9a, l := 0xbc, a := 0xde, f := 0xf0 },
    mem := { rom := fun _ => 0, ram := fun _ => 0 } }

/-- Witness for C9 at a concrete machine with the stack in RAM. -/
theorem C9_push_pop_roundtrip_witness :
    ((instrPOP Z80CPU.setBC (instrPUSH Z80CPU.getBC c9W)).cpu.getBC = c9W.cpu.getBC ∧
      (instrPOP Z80CPU.setBC (instrPUSH Z80CPU.getBC c9W)).cpu.sp = c9W.cpu.sp) ∧
    ((instrPOP Z80CPU.setDE (instrPUSH Z80CPU.getDE c9W)).cpu.getDE = c9W.cpu.getDE ∧
      (instrPOP Z80CPU.setDE (instrPUSH Z80CPU.getDE c9W)).cpu.sp = c9W.cpu.sp) ∧
    ((instrPOP Z80CPU.setHL (instrPUSH Z80CPU.getHL c9W)).cpu.getHL = c9W.cpu.getHL ∧
      (instrPOP Z80CPU.setHL (instrPUSH Z80CPU.getHL c9W)).cpu.sp = c9W.cpu.sp) ∧
    ((instrPOP Z80CPU.setAF (instrPUSH Z80CPU.getAF c9W)).cpu.getAF = c9W.cpu.getAF ∧
      (instrPOP Z80CPU.setAF (instrPUSH Z80CPU.getAF c9W)).cpu.sp = c9W.cpu.sp) :=
  C9_push_pop_roundtrip c9W (by decide) (by decide) (by decide) (by decide) (by decide)
    (by decide) (by decide) (by decide) (by decide) (by decide) (by decide)

/-! ## C5: LDI and LDIR block-transfer steps -/

/-- Concrete machine about to execute an LDIR repeat step with BC = 2:
after the step BC = 1 ≠ 0 but the PV flag is false. -/
def c5M : Machine :=
  { cpu := { z80Zero with b := 0, c := 2, h := 0x50, l := 0, d := 0x60, e := 0, f := 0xff },
    mem := { rom := fun _ => 0, ram := fun _ => 0x7b } }

/-- Counterexample to C5 as stated: an LDIR step from BC = 2 leaves
BC = 1 (non-zero) yet clears PV, because the LDIR table entry sets PV to
false unconditionally instead of `BC ≠ 0`. -/
theorem C5_ldir_pv_counterexample :
    (instrLDIR c5M).cpu.getBC = 1 ∧
    (instrLDIR c5M).cpu.getFlag Z80CPU.FLAG_PV = false ∧
    ¬((instrLDIR c5M).cpu.getFlag Z80CPU.FLAG_PV =
        decide ((instrLDIR c5M).cpu.getBC ≠ 0)) := by
  decide

/-- C5 (amended): every execution step of LDI and of LDIR (including
each repeat step of LDIR) transfers the byte at (HL) to (DE), increments
HL and DE (mod 2^16), decrements BC (mod 2^16), and leaves H = 0 and
N = 0.  LDI sets PV to (BC ≠ 0) evaluated after the decrement, but LDIR
sets PV to false on every step. -/
theorem C5_ldi_ldir_step (m : Machine) :
    ((instrLDI m).mem = (m.writeMem m.cpu.getDE (m.readMem m.cpu.getHL)).mem ∧
      (instrLDI m).cpu.getHL = (m.cpu.getHL + 1) % 65536 ∧
      (instrLDI m).cpu.getDE = (m.cpu.getDE + 1) % 65536 ∧
      (instrLDI m).cpu.getBC = (m.cpu.getBC + 65535) % 65536 ∧
      (instrLDI m).cpu.getFlag Z80CPU.FLAG_H = false ∧
      (instrLDI m).cpu.getFlag Z80CPU.FLAG_N = false ∧
      (instrLDI m).cpu.getFlag Z80CPU.FLAG_PV = decide ((instrLDI m).cpu.getBC ≠ 0)) ∧
    ((instrLDIR m).mem = (m.writeMem m.cpu.getDE (m.readMem m.cpu.getHL)).mem ∧
      (instrLDIR m).cpu.getHL = (m.cpu.getHL + 1) % 65536 ∧
      (instrLDIR m).cpu.getDE = (m.cpu.getDE + 1) % 65536 ∧
      (instrLDIR m).cpu.getBC = (m.cpu.getBC + 65535) % 65536 ∧
      (instrLDIR m).cpu.getFlag Z80CPU.FLAG_H = false ∧
      (instrLDIR m).cpu.getFlag Z80CPU.FLAG_N = false ∧
      (instrLDIR m).cpu.getFlag Z80CPU.FLAG_PV = false) := by
  obtain ⟨⟨qa, qf, qb, qc, qd, qe, qh, ql, wa, wf, wb, wc, wd, we, wh, wl,
    qix, qiy, qsp, qpc, qi, qr, j1, j2, jim, jeip, jhl, jts⟩, mem⟩ := m
  constructor
  · refine ⟨?_, ?_, ?_, ?_, ?_, ?_, ?_⟩
    · simp only [instrLDI, Machine.writeMem, Machine.readMem, Z80CPU.setHL,
        Z80CPU.setDE, Z80CPU.setBC, Z80CPU.setFlag]
    · simp only [instrLDI, Machine.writeMem, Machine.readMem, Z80CPU.setHL,
        Z80CPU.setDE, Z80CPU.setBC, Z80CPU.setFlag, Z80CPU.getHL]
      rw [compose16, mod65536_mod65536]
    · simp only [instrLDI, Machine.writeMem, Machine.readMem, Z80CPU.setHL,
        Z80CPU.setDE, Z80CPU.setBC, Z80CPU.setFlag, Z80CPU.getDE]
      rw [compose16, mod65536_mod65536]
    · simp only [instrLDI, Machine.writeMem, Machine.readMem, Z80CPU.setHL,
        Z80CPU.setDE, Z80CPU.setBC, Z80CPU.setFlag, Z80CPU.getBC]
      rw [compose16, mod65536_mod65536]
    · rw [getFlag_H]
      simp only [instrLDI, Machine.writeMem, Machine.readMem, Z80CPU.setHL,
        Z80CPU.setDE, Z80CPU.setBC, Z80CPU.setFlag]
      rw [fskip_X_4, fskip_Y_4, fskip_N_4, fskip_PV_4, fsame_H]
    · rw [getFlag_N]
      simp only [instrLDI, Machine.writeMem, Machine.readMem, Z80CPU.setHL,
        Z80CPU.setDE, Z80CPU.setBC, Z80CPU.setFlag]
      rw [fskip_X_1, fskip_Y_1, fsame_N]
    · rw [getFlag_PV]
      simp only [instrLDI, Machine.writeMem, Machine.readMem, Z80CPU.setHL,
        Z80CPU.setDE, Z80CPU.setBC, Z80CPU.setFlag, Z80CPU.getBC]
      rw [fskip_X_2, fskip_Y_2, fskip_N_2, fsame_PV]
  · refine ⟨?_, ?_, ?_, ?_, ?_, ?_, ?_⟩
    · simp only [instrLDIR, Machine.writeMem, Machine.readMem, Z80CPU.setHL,
        Z80CPU.setDE, Z80CPU.setBC, Z80CPU.setFlag]
    · simp only [instrLDIR, Machine.writeMem, Machine.readMem, Z80CPU.setHL,
        Z80CPU.setDE, Z80CPU.setBC, Z80CPU.setFlag, Z80CPU.getHL]
      rw [compose16, mod65536_mod65536]
    · simp only [instrLDIR, Machine.writeMem, Machine.readMem, Z80CPU.setHL,
        Z80CPU.setDE, Z80CPU.setBC, Z80CPU.setFlag, Z80CPU.getDE]
      rw [compose16, mod65536_mod65536]
    · simp only [instrLDIR, Machine.writeMem, Machine.readMem, Z80CPU.setHL,
        Z80CPU.setDE, Z80CPU.setBC, Z80CPU.setFlag, Z80CPU.getBC]
      rw [compose16, mod65536_mod65536]
    · rw [getFlag_H]
      simp only [instrLDIR, Machine.writeMem, Machine.readMem, Z80CPU.setHL,
        Z80CPU.setDE, Z80CPU.setBC, Z80CPU.setFlag]
      rw [fskip_X_4, fskip_Y_4, fskip_N_4, fskip_PV_4, fsame_H]
    · rw [getFlag_N]
      simp only [instrLDIR, Machine.writeMem, Machine.readMem, Z80CPU.setHL,
        Z80CPU.setDE, Z80CPU.setBC, Z80CPU.setFlag]
      rw [fskip_X_1, fskip_Y_1, fsame_N]
    · rw [getFlag_PV]
      simp only [instrLDIR, Machine.writeMem, Machine.readMem, Z80CPU.setHL,
        Z80CPU.setDE, Z80CPU.setBC, Z80CPU.setFlag]
      rw [fskip_X_2, fskip_Y_2, fskip_N_2, fsame_PV]

/-! ## C6: ULA scanline invariants and the interrupt-request flag -/

theorem ulaLoop_char (ts : Nat) : ∀ (sc : Nat) (b : Bool), sc < 312 →
    ulaLoop ⟨sc, ts, b⟩ =
      ⟨(sc + ts / 224) % 312, ts % 224, b || decide (312 ≤ sc + ts / 224)⟩ := by
  induction ts using Nat.strong_induction_on with
  | _ ts ih =>
    intro sc b hsc
    rw [ulaLoop]
    by_cases h : 224 ≤ ts
    · rw [if_pos h]
      dsimp only
      by_cases hw : 312 ≤ sc + 1
      · rw [if_pos hw, if_pos hw]
        rw [ih (ts - 224) (by omega) 0 true (by norm_num)]
        have hsc311 : sc = 311 := by omega
        subst hsc311
        simp only [ULAState.mk.injEq]
        refine ⟨by omega, by omega, ?_⟩
        rw [decide_eq_true (by omega : 312 ≤ 311 + ts / 224)]
        simp
      · rw [if_neg hw, if_neg hw]
        rw [ih (ts - 224) (by omega) (sc + 1) b (by omega)]
        simp only [ULAState.mk.injEq]
        refine ⟨by omega, by omega, ?_⟩
        have harg : sc + 1 + (ts - 224) / 224 = sc + ts / 224 := by omega
        rw [harg]
    · rw [if_neg h]
      have h1 : ts / 224 = 0 := Nat.div_eq_of_lt (by omega)
      have h2 : ts % 224 = ts := Nat.mod_eq_of_lt (by omega)
      rw [h1, h2, Nat.add_zero, Nat.mod_eq_of_lt hsc,
        decide_eq_false (by omega : ¬312 ≤ sc), Bool.or_false]

theorem ulaAddCycles_char (u : ULAState) (c : Nat) (h : u.currentScanline < 312) :
    ulaAddCycles u c =
      ⟨(u.currentScanline + (u.scanlineTStates + c) / 224) % 312,
       (u.scanlineTStates + c) % 224,
       u.interruptRequested ||
         decide (312 ≤ u.currentScanline + (u.scanlineTStates + c) / 224)⟩ := by
  unfold ulaAddCycles
  exact ulaLoop_char (u.scanlineTStates + c) u.currentScanline u.interruptRequested h

theorem ulaReachable_inv (u : ULAState) (h : UlaReachable u) :
    u.currentScanline < 312 ∧ u.scanlineTStates < 224 := by
  induction h with
  | init => exact ⟨by decide, by decide⟩
  | step u c _ ih =>
    rw [ulaAddCycles_char u c ih.1]
    exact ⟨Nat.mod_lt _ (by norm_num), Nat.mod_lt _ (by norm_num)⟩

/-- C6 (amended): in every ULA state reachable by `addCycles` calls from
reset, `scanline < 312` and `scanline_tstate < 224` hold, and they still
hold after any further `addCycles` call; during a call, `int_pending`
becomes true exactly when the scanline counter passes the 311→0 wrap
(i.e. when the lines advanced reach `312 − scanline`).  However,
`int_pending` is not cleared when the CPU accepts the end-of-frame
interrupt: the interrupt phase of the frame driver leaves the ULA state —
including `interruptRequested` — untouched (`checkInterrupt`, which would
clear it, is never called). -/
theorem C6_scanline_invariants (u : ULAState) (c : Nat) (s : Spectrum)
    (h : UlaReachable u) :
    u.currentScanline < 312 ∧ u.scanlineTStates < 224 ∧
    (ulaAddCycles u c).currentScanline < 312 ∧
    (ulaAddCycles u c).scanlineTStates < 224 ∧
    (ulaAddCycles u c).interruptRequested =
      (u.interruptRequested ||
        decide (312 ≤ u.currentScanline + (u.scanlineTStates + c) / 224)) ∧
    (executeFrameInterrupt s).ula = s.ula := by
  obtain ⟨hsc, hts⟩ := ulaReachable_inv u h
  rw [ulaAddCycles_char u c hsc]
  exact ⟨hsc, hts, Nat.mod_lt _ (by norm_num), Nat.mod_lt _ (by norm_num), rfl, rfl⟩

/-- Concrete system at a frame boundary: the ULA has raised its interrupt
request, the CPU has interrupts enabled in IM 1. -/
def c6S : Spectrum :=
  { machine := { cpu := { z80Zero with iff1 := true, im := 1, sp := 0x8000 },
                 mem := { rom := fun _ => 0, ram := fun _ => 0 } },
    ula := { currentScanline := 0, scanlineTStates := 0, interruptRequested := true } }

/-- Counterexample to C6 as stated: at the frame boundary the CPU accepts
the interrupt (PC vectors to 0x0038), yet `interruptRequested` stays
true — nothing in the frame driver reads or clears it. -/
theorem C6_int_pending_not_cleared :
    (executeFrameInterrupt c6S).machine.cpu.pc = 0x0038 ∧
    (executeFrameInterrupt c6S).ula.interruptRequested = true ∧
    ¬(executeFrameInterrupt c6S).ula.interruptRequested = false := by
  decide

/-- Witness for C6 at the reset ULA state, 500 cycles, and a concrete
system. -/
theorem C6_scanline_invariants_witness :
    ulaReset.currentScanline < 312 ∧ ulaReset.scanlineTStates < 224 ∧
    (ulaAddCycles ulaReset 500).currentScanline < 312 ∧
    (ulaAddCycles ulaReset 500).scanlineTStates < 224 ∧
    (ulaAddCycles ulaReset 500).interruptRequested =
      (ulaReset.interruptRequested ||
        decide (312 ≤ ulaReset.currentScanline + (ulaReset.scanlineTStates + 500) / 224)) ∧
    (executeFrameInterrupt c6S).ula = c6S.ula :=
  C6_scanline_invariants ulaReset 500 c6S UlaReachable.init

/-! ## C4 and C8: tape pulse engine -/

/-- Tape player state right after `loadTAP`/`loadTZX` + `reset`. -/
def tapeInit (blocks : List TapeBlock) : TapeState :=
  { blocks := blocks, currentBlock := none, blockIndex := 0, playing := false, paused := false,
    bitPosition := 0, bytePosition := 0, currentBit := 0, lastEarBit := 0,
    nextEdgeCycle := some 0, lastUpdateCycle := 0, state := .IDLE, pulseCount := 0,
    edgeCount := 0, pauseCycles := 0, pulseIndex := 0, pulseSequence := [], loopStack := [] }

/-- Standard TAP header block as `parseTAPBlocks` builds it: flag byte
0x00 < 128, so 8063 pilot pulses of 2168 T-states and a 100 ms pause. -/
def c8Block : TapeBlock :=
  { btype := 0x10, data := [0x00, 0xff], pilotPulse := 2168, sync1Pulse := 667,
    sync2Pulse := 735, zeroPulse := 855, onePulse := 1710, pilotPulses := 8063,
    pause := 100, usedBits := 8 }

/-- Player state after `play()` at CPU cycle 0 on a one-block tape. -/
def c8Tape : TapeState := tapePlay 10 0 (tapeInit [c8Block])

/-- Mid-pilot player state: `e` edges emitted, EAR bit `ear`, next edge
scheduled at `(e+1)·2168`. -/
def c8Mid (e ear : Nat) : TapeState :=
  { blocks := [c8Block], currentBlock := some c8Block, blockIndex := 1, playing := true,
    paused := false, bitPosition := 0, bytePosition := 0, currentBit := 0, lastEarBit := ear,
    nextEdgeCycle := some ((e + 1) * 2168), lastUpdateCycle := 0, state := .PILOT,
    pulseCount := 0, edgeCount := e, pauseCycles := 0, pulseIndex := 0, pulseSequence := [],
    loopStack := [] }

/-- Player state right after the pilot→SYNC1 transition at T-state
34961168 = 8063·2·2168. -/
def c8Final (ear : Nat) : TapeState :=
  { blocks := [c8Block], currentBlock := some c8Block, blockIndex := 1, playing := true,
    paused := false, bitPosition := 0, bytePosition := 0, currentBit := 0, lastEarBit := ear,
    nextEdgeCycle := some (34961168 + 667), lastUpdateCycle := 0, state := .SYNC1,
    pulseCount := 0, edgeCount := 16126, pauseCycles := 0, pulseIndex := 0,
    pulseSequence := [], loopStack := [] }

theorem c8_tape_eq : c8Tape = c8Mid 0 0 := rfl

theorem tapeEdgeLoop_done (fuel cycles : Nat) (block : TapeBlock) (t : TapeState)
    (h : edgeDue cycles t.nextEdgeCycle = false) :
    tapeEdgeLoop fuel cycles block t = t := by
  cases fuel with
  | zero => rw [tapeEdgeLoop]
  | succ f => rw [tapeEdgeLoop, if_neg]; simp [h]

theorem c8_loop (fuel : Nat) : ∀ (e ear : Nat), e < 16126 → 16126 - e ≤ fuel → ear ≤ 1 →
    tapeEdgeLoop fuel 34961168 c8Block (c8Mid e ear) = c8Final ((ear + (16126 - e)) % 2) := by
  induction fuel with
  | zero => intro e ear he hf _; omega
  | succ fuel ih =>
    intro e ear he hf hear
    rw [tapeEdgeLoop]
    have hcond : edgeDue 34961168 (c8Mid e ear).nextEdgeCycle = true ∧
        (c8Mid e ear).state ≠ TapeSM.PAUSE ∧ (c8Mid e ear).state ≠ TapeSM.IDLE := by
      refine ⟨?_, by simp [c8Mid], by simp [c8Mid]⟩
      simp only [c8Mid, edgeDue]
      rw [decide_eq_true_eq]
      omega
    rw [if_pos hcond]
    have d1 : (c8Block.btype = 0x12) = False := by simp [c8Block]
    have d2 : (c8Block.btype = 0x13) = False := by simp [c8Block]
    have d3 : (c8Block.btype = 0x14) = False := by simp [c8Block]
    have d4 : (c8Block.btype = 0x15) = False := by simp [c8Block]
    have hpp : c8Block.pilotPulse = 2168 := rfl
    have hps : c8Block.pilotPulses = 8063 := rfl
    have hs1 : c8Block.sync1Pulse = 667 := rfl
    simp only [c8Mid, d1, d2, d3, d4, if_false, tapeProcessEdge, bumpEdge, hpp, hps, hs1]
    by_cases hlast : 8063 * 2 ≤ e + 1
    · rw [if_pos hlast]
      have he' : e = 16125 := by omega
      subst he'
      rw [tapeEdgeLoop_done _ _ _ _ (by simp [edgeDue])]
      simp only [c8Final, TapeState.mk.injEq, Option.some.injEq, true_and, and_true]
      omega
    · rw [if_neg hlast]
      have hstep : tapeEdgeLoop fuel 34961168 c8Block (c8Mid (e + 1) (1 - ear)) =
          c8Final ((1 - ear + (16126 - (e + 1))) % 2) :=
        ih (e + 1) (1 - ear) (by omega) (by omega) (by omega)
      simp only [c8Mid] at hstep
      rw [show (e + 1) * 2168 + 2168 = (e + 1 + 1) * 2168 from by ring]
      rw [hstep]
      exact congrArg c8Final (by omega)

theorem c8_update :
    (tapeUpdate 20000 34961168 c8Tape).2 = { c8Final 0 with lastUpdateCycle := 34961168 } := by
  rw [c8_tape_eq, tapeUpdate]
  rw [if_neg (by decide), if_neg (by decide)]
  dsimp only
  rw [if_pos (by decide : ((c8Mid 0 0).currentBlock.getD { btype := 0 }).btype = 0x10 ∨
    ((c8Mid 0 0).currentBlock.getD { btype := 0 }).btype = 0x11)]
  rw [tapeUpdateDataBlock]
  rw [show (c8Mid 0 0).currentBlock = some c8Block from rfl]
  dsimp only
  rw [c8_loop 20000 0 0 (by omega) (by omega) (by omega)]

/-- C8: with a Standard block of 8063 pilot pulses of 2168 T-states, a
single update that reaches exactly 8063·2·2168 T-states after play-start
moves the player from the PILOT state to SYNC1, and the next scheduled
edge is 667 T-states (the sync1 pulse) after that transition time. -/
theorem C8_pilot_to_sync1 :
    c8Tape.state = TapeSM.PILOT ∧
    c8Tape.nextEdgeCycle = some 2168 ∧
    8063 * 2 * 2168 = 34961168 ∧
    (tapeUpdate 20000 (8063 * 2 * 2168) c8Tape).2.state = TapeSM.SYNC1 ∧
    (tapeUpdate 20000 (8063 * 2 * 2168) c8Tape).2.nextEdgeCycle =
      some (8063 * 2 * 2168 + 667) := by
  have h : (8063 * 2 * 2168 : Nat) = 34961168 := by norm_num
  rw [h, c8_update]
  exact ⟨by decide, by decide, rfl, rfl, rfl⟩

/-- Pure-tone block: 5 pulses of 100 T-states. -/
def c4ToneBlock : TapeBlock := { btype := 0x12, pulseLength := 100, pulseCount := 5 }

/-- Player state after `play()` at CPU cycle 0 on the pure-tone tape:
state PURE_TONE, first edge scheduled at T-state 100. -/
def c4Tone : TapeState := tapePlay 10 0 (tapeInit [c4ToneBlock])

/-- Pulse-sequence block with pulses of 300 and 400 T-states. -/
def c4SeqBlock : TapeBlock := { btype := 0x13, pulses := [300, 400] }

/-- Player state after `play()` at CPU cycle 0 on the pulse-sequence
tape: state PULSE_SEQUENCE, first edge scheduled at T-state 300. -/
def c4Seq : TapeState := tapePlay 10 0 (tapeInit [c4SeqBlock])

/-- C4: playing a PureTone or PulseSequence block emits no EAR toggles at
all.  `Tape.update` dispatches only Standard/Turbo blocks (and the pause
state) to the edge processor, so driving the player far past every
scheduled edge (here to T-state 1000) leaves the EAR bit, the state and
the scheduled edge unchanged — the `processPureTone` and
`processPulseSequence` handlers are unreachable. -/
theorem C4_pure_tone_sequence_no_edges :
    c4Tone.state = TapeSM.PURE_TONE ∧
    c4Tone.nextEdgeCycle = some 100 ∧
    (tapeUpdate 1000 1000 c4Tone).1 = c4Tone.lastEarBit ∧
    (tapeUpdate 1000 1000 c4Tone).2.lastEarBit = c4Tone.lastEarBit ∧
    (tapeUpdate 1000 1000 c4Tone).2.state = TapeSM.PURE_TONE ∧
    (tapeUpdate 1000 1000 c4Tone).2.nextEdgeCycle = some 100 ∧
    c4Seq.state = TapeSM.PULSE_SEQUENCE ∧
    c4Seq.nextEdgeCycle = some 300 ∧
    (tapeUpdate 1000 1000 c4Seq).1 = c4Seq.lastEarBit ∧
    (tapeUpdate 1000 1000 c4Seq).2.lastEarBit = c4Seq.lastEarBit ∧
    (tapeUpdate 1000 1000 c4Seq).2.state = TapeSM.PULSE_SEQUENCE ∧
    (tapeUpdate 1000 1000 c4Seq).2.nextEdgeCycle = some 300 := by
  decide

end ZXG
